import Mathlib

/-!
Verification of the stat-types interface layer of `rust-shed`
(`src/shed/stats/traits/stat_types.rs`).

The source declares three capability traits (`Counter`, `Timeseries`,
`Histogram`), boxed type-erased handles (`BoxCounter`, `BoxTimeseries`,
`BoxHistogram` via `auto_impl(Box)`), and thread-local adapter traits
(`CounterStatic`, `TimeseriesStatic`, `HistogramStatic`) implemented for
`std::thread::LocalKey<T>` by `self.with(|s| s.method(args))`.

The embedding models:
  * a capability implementation as a structure of state-transforming
    functions over an abstract state type `S`;
  * reference fakes for each capability, as described by the spec's
    testable properties (running-sum counter, `(sum, nsamples)` log
    timeseries, sample-list and bucket-map histograms);
  * `LocalKey<T>` as a map from thread ids to per-thread instance states,
    with `LocalKey::with` applying a state transformer to the current
    thread's instance only;
  * `Box<T>`'s auto-generated trait impls as forwarding wrappers;
  * the declared Rust method signatures deeply (receiver with lifetime,
    parameter types, return type), for the signature-shape claims.
-/

namespace StatTypes

/-! ## Deep model of the declared Rust method signatures -/

/-- Rust types occurring in (or expressible as results of) the trait method
signatures: `i64`, `u32`, `()`, plus `Result` and `Option` shapes so that
"the return type is not an error-carrying type" is a contentful statement. -/
inductive Ty where
  | i64 : Ty
  | u32 : Ty
  | unit : Ty
  | result : Ty → Ty → Ty
  | option : Ty → Ty
deriving DecidableEq, Repr

/-- Receiver lifetime: an elided/generic lifetime as in `&self`, or the
explicit `'static` lifetime as in `&'static self`. -/
inductive Lifetime where
  | elided : Lifetime
  | static_ : Lifetime
deriving DecidableEq, Repr

/-- Receiver shape of a trait method: a shared reference to `self` with the
given lifetime. -/
inductive Recv where
  | ref : Lifetime → Recv
deriving DecidableEq, Repr

/-- A trait method signature: method name, receiver, parameter types (after
the receiver), and return type. -/
structure MethodSig where
  name : String
  recv : Recv
  params : List Ty
  ret : Ty
deriving DecidableEq, Repr

/-- `Counter::increment_value`: `fn increment_value(&self, value: i64)`. -/
def counter_increment_value_sig : MethodSig :=
  ⟨"increment_value", Recv.ref Lifetime.elided, [Ty.i64], Ty.unit⟩

/-- `Timeseries::add_value`: `fn add_value(&self, value: i64)`. -/
def timeseries_add_value_sig : MethodSig :=
  ⟨"add_value", Recv.ref Lifetime.elided, [Ty.i64], Ty.unit⟩

/-- `Timeseries::add_value_aggregated`:
`fn add_value_aggregated(&self, value: i64, nsamples: u32)`. -/
def timeseries_add_value_aggregated_sig : MethodSig :=
  ⟨"add_value_aggregated", Recv.ref Lifetime.elided, [Ty.i64, Ty.u32], Ty.unit⟩

/-- `Histogram::add_value`: `fn add_value(&self, value: i64)`. -/
def histogram_add_value_sig : MethodSig :=
  ⟨"add_value", Recv.ref Lifetime.elided, [Ty.i64], Ty.unit⟩

/-- `Histogram::add_repeated_value`:
`fn add_repeated_value(&self, value: i64, nsamples: u32)`. -/
def histogram_add_repeated_value_sig : MethodSig :=
  ⟨"add_repeated_value", Recv.ref Lifetime.elided, [Ty.i64, Ty.u32], Ty.unit⟩

/-- `CounterStatic::increment_value`:
`fn increment_value(&'static self, value: i64)`. -/
def counterStatic_increment_value_sig : MethodSig :=
  ⟨"increment_value", Recv.ref Lifetime.static_, [Ty.i64], Ty.unit⟩

/-- `TimeseriesStatic::add_value`: `fn add_value(&'static self, value: i64)`. -/
def timeseriesStatic_add_value_sig : MethodSig :=
  ⟨"add_value", Recv.ref Lifetime.static_, [Ty.i64], Ty.unit⟩

/-- `TimeseriesStatic::add_value_aggregated`:
`fn add_value_aggregated(&'static self, value: i64, nsamples: u32)`. -/
def timeseriesStatic_add_value_aggregated_sig : MethodSig :=
  ⟨"add_value_aggregated", Recv.ref Lifetime.static_, [Ty.i64, Ty.u32], Ty.unit⟩

/-- `HistogramStatic::add_value`: `fn add_value(&'static self, value: i64)`. -/
def histogramStatic_add_value_sig : MethodSig :=
  ⟨"add_value", Recv.ref Lifetime.static_, [Ty.i64], Ty.unit⟩

/-- `HistogramStatic::add_repeated_value`:
`fn add_repeated_value(&'static self, value: i64, nsamples: u32)`. -/
def histogramStatic_add_repeated_value_sig : MethodSig :=
  ⟨"add_repeated_value", Recv.ref Lifetime.static_, [Ty.i64, Ty.u32], Ty.unit⟩

/-! ## Capability implementations as structures of state transformers

A Rust type `T` implementing a capability trait is modelled as a state type
`S` together with one state-transforming function per trait method.  The Rust
methods take `&self` and return `()`; their only caller-visible behaviour is
the mutation of the implementation's internal state, which the embedding makes
explicit as `S → args → S`. -/

/-- An implementation of the `Counter` trait over state type `S`. -/
structure CounterImpl (S : Type u) where
  increment_value : S → Int → S

/-- An implementation of the `Timeseries` trait over state type `S`. -/
structure TimeseriesImpl (S : Type u) where
  add_value : S → Int → S
  add_value_aggregated : S → Int → Nat → S

/-- An implementation of the `Histogram` trait over state type `S`. -/
structure HistogramImpl (S : Type u) where
  add_value : S → Int → S
  add_repeated_value : S → Int → Nat → S

/-! ## Boxed handles (`BoxCounter` / `BoxTimeseries` / `BoxHistogram`)

`Box<dyn Trait + Send + Sync>` is an owning heap wrapper around a value of
the underlying implementation; `auto_impl(Box)` generates trait impls that
forward each method to the boxed inner value. -/

/-- The state of a `Box`ed implementation: a wrapper holding the inner
implementation's state. -/
structure Boxed (S : Type u) where
  inner : S

/-- Constructing a box (`Box::new`) wraps the value and performs no call on
it. -/
def mkBoxed {S : Type u} (s : S) : Boxed S := ⟨s⟩

/-- The `auto_impl(Box)`-generated `impl Counter for Box<T>`: each method
forwards to the inner value with the same arguments. -/
def boxCounterImpl {S : Type u} (c : CounterImpl S) : CounterImpl (Boxed S) where
  increment_value := fun b v => ⟨c.increment_value b.inner v⟩

/-- The `auto_impl(Box)`-generated `impl Timeseries for Box<T>`. -/
def boxTimeseriesImpl {S : Type u} (t : TimeseriesImpl S) : TimeseriesImpl (Boxed S) where
  add_value := fun b v => ⟨t.add_value b.inner v⟩
  add_value_aggregated := fun b v n => ⟨t.add_value_aggregated b.inner v n⟩

/-- The `auto_impl(Box)`-generated `impl Histogram for Box<T>`. -/
def boxHistogramImpl {S : Type u} (h : HistogramImpl S) : HistogramImpl (Boxed S) where
  add_value := fun b v => ⟨h.add_value b.inner v⟩
  add_repeated_value := fun b v n => ⟨h.add_repeated_value b.inner v n⟩

/-- A call-logging `Counter` implementation: its state is the list of
`(method name, argument)` invocations received, in order.  Used to observe
how many raw-method calls a forwarding layer performs. -/
def callLogCounter : CounterImpl (List (String × Int)) where
  increment_value := fun log v => log ++ [("increment_value", v)]

/-! ## Thread-local slots (`std::thread::LocalKey<T>`) and adapters

A `LocalKey<T>` is modelled as a map from thread ids to the per-thread
instance state (each thread owns an independent instance).  `LocalKey::with`
runs a closure against the current thread's instance; in the state-passing
embedding the closure is a state transformer applied to the current thread's
state, leaving every other thread's state untouched. -/

/-- Thread identifier. -/
abbrev ThreadId : Type := Nat

/-- The per-thread instances held by a `LocalKey<T>` slot: one instance state
per thread. -/
def LocalKey (S : Type u) : Type u := ThreadId → S

/-- Constructing a thread-local slot with a per-thread initializer: every
thread's lazily-initialized instance is the initializer's value, and no
capability method is invoked. -/
def mkLocalKey {S : Type u} (init : S) : LocalKey S := fun _ => init

/-- `LocalKey::with`, from the thread `t` making the call: apply `f` to the
current thread's instance, leaving other threads' instances unchanged. -/
def localWith {S : Type u} (key : LocalKey S) (t : ThreadId) (f : S → S) : LocalKey S :=
  fun t' => if t' = t then f (key t) else key t'

/-- Resolving the slot to the calling thread's instance (the value
`LocalKey::with` hands to its closure). -/
def resolveSlot {S : Type u} (key : LocalKey S) (t : ThreadId) : S := key t

/-- Writing back the calling thread's instance state after a raw-method call
mutated it, leaving every other thread's instance as it was. -/
def setSlot {S : Type u} (key : LocalKey S) (t : ThreadId) (s : S) : LocalKey S :=
  fun t' => if t' = t then s else key t'

/-- `impl<T: Counter> CounterStatic for LocalKey<T>`:
`fn increment_value(&'static self, value) { self.with(|s| T::increment_value(s, value)) }`,
called from thread `t`. -/
def counterStatic_increment_value {S : Type u} (c : CounterImpl S)
    (key : LocalKey S) (t : ThreadId) (v : Int) : LocalKey S :=
  localWith key t (fun s => c.increment_value s v)

/-- `impl<T: Timeseries> TimeseriesStatic for LocalKey<T>`:
`fn add_value(&'static self, value) { self.with(|s| s.add_value(value)) }`. -/
def timeseriesStatic_add_value {S : Type u} (ts : TimeseriesImpl S)
    (key : LocalKey S) (t : ThreadId) (v : Int) : LocalKey S :=
  localWith key t (fun s => ts.add_value s v)

/-- `impl<T: Timeseries> TimeseriesStatic for LocalKey<T>`:
`fn add_value_aggregated(&'static self, value, nsamples)
  { self.with(|s| s.add_value_aggregated(value, nsamples)) }`. -/
def timeseriesStatic_add_value_aggregated {S : Type u} (ts : TimeseriesImpl S)
    (key : LocalKey S) (t : ThreadId) (v : Int) (n : Nat) : LocalKey S :=
  localWith key t (fun s => ts.add_value_aggregated s v n)

/-- `impl<T: Histogram> HistogramStatic for LocalKey<T>`:
`fn add_value(&'static self, value) { self.with(|s| s.add_value(value)) }`. -/
def histogramStatic_add_value {S : Type u} (h : HistogramImpl S)
    (key : LocalKey S) (t : ThreadId) (v : Int) : LocalKey S :=
  localWith key t (fun s => h.add_value s v)

/-- `impl<T: Histogram> HistogramStatic for LocalKey<T>`:
`fn add_repeated_value(&'static self, value, nsamples)
  { self.with(|s| s.add_repeated_value(value, nsamples)) }`. -/
def histogramStatic_add_repeated_value {S : Type u} (h : HistogramImpl S)
    (key : LocalKey S) (t : ThreadId) (v : Int) (n : Nat) : LocalKey S :=
  localWith key t (fun s => h.add_repeated_value s v n)

/-! ## Reference fakes

Conformant fake implementations, as described by the spec's testable
properties: a running-sum counter, a timeseries logging `(sum, nsamples)`
pairs, a histogram recording its individual samples, and a histogram
recording a bucket map from value to occurrence count. -/

/-- A `Counter`-conforming reference fake tracking a running sum. -/
structure CounterFake where
  total : Int
deriving DecidableEq, Repr

/-- The fake's `increment_value`: add the delta to the running total. -/
def counterFakeImpl : CounterImpl CounterFake where
  increment_value := fun s v => ⟨s.total + v⟩

/-- Apply a sequence of `increment_value` calls to the counter fake. -/
def applyDeltas (s : CounterFake) (ds : List Int) : CounterFake :=
  ds.foldl counterFakeImpl.increment_value s

/-- A `Timeseries`-conforming reference fake recording a flat list of
`(sum, nsamples)` pairs, in call order. -/
structure TsFake where
  log : List (Int × Nat)
deriving DecidableEq, Repr

/-- The timeseries fake: `add_value v` logs `(v, 1)` (one sample of value
`v`); `add_value_aggregated v n` logs `(v, n)` (`n` samples whose values sum
to `v`). -/
def tsFakeImpl : TimeseriesImpl TsFake where
  add_value := fun s v => ⟨s.log ++ [(v, 1)]⟩
  add_value_aggregated := fun s v n => ⟨s.log ++ [(v, n)]⟩

/-- The total number of samples and total sum a `TsFake` log stands for:
each `(sum, nsamples)` entry contributes `nsamples` samples summing to
`sum`. -/
def tsTotals (s : TsFake) : Nat × Int :=
  ((s.log.map Prod.snd).sum, (s.log.map Prod.fst).sum)

/-- A `Histogram`-conforming reference fake recording the individual samples
it received, in call order. -/
structure HistFake where
  samples : List Int
deriving DecidableEq, Repr

/-- The sample-list histogram fake: `add_value v` records one sample `v`;
`add_repeated_value v n` records `n` samples, each equal to `v`. -/
def histFakeImpl : HistogramImpl HistFake where
  add_value := fun s v => ⟨s.samples ++ [v]⟩
  add_repeated_value := fun s v n => ⟨s.samples ++ List.replicate n v⟩

/-- The total number of samples and total sum a `HistFake` holds. -/
def histTotals (s : HistFake) : Nat × Int :=
  (s.samples.length, s.samples.sum)

/-- A `Histogram`-conforming reference fake recording buckets as a mapping
from value to occurrence count. -/
structure HistMapFake where
  buckets : Int → Nat

/-- The bucket-map histogram fake: `add_value v` bumps the count at `v` by
one; `add_repeated_value v n` bumps the count at `v` by `n`. -/
def histMapFakeImpl : HistogramImpl HistMapFake where
  add_value := fun s v => ⟨fun x => if x = v then s.buckets x + 1 else s.buckets x⟩
  add_repeated_value := fun s v n => ⟨fun x => if x = v then s.buckets x + n else s.buckets x⟩

/-- The empty bucket map. -/
def emptyHistMap : HistMapFake := ⟨fun _ => 0⟩

/-- The empty timeseries log. -/
def emptyTs : TsFake := ⟨[]⟩

/-- The empty sample list. -/
def emptyHist : HistFake := ⟨[]⟩

/-- Whether a Rust type carries an error channel visible to the caller
(a `Result` or `Option` shape). -/
def errorCarrying : Ty → Bool
  | Ty.result _ _ => true
  | Ty.option _ => true
  | _ => false

/-- A concrete `Counter` implementation over `Int` state, summing deltas. -/
def intSumCounter : CounterImpl Int := ⟨fun s v => s + v⟩

/-- A thread-local slot of `intSumCounter` instances, every thread's instance
initialized to `0`. -/
def zeroKey : LocalKey Int := mkLocalKey 0

/-- Folding `increment_value` calls over the counter fake adds the deltas'
sum to the running total. -/
theorem applyDeltas_total (ds : List Int) (s : CounterFake) :
    (applyDeltas s ds).total = s.total + ds.sum := by
  induction ds generalizing s with
  | nil => simp [applyDeltas]
  | cons d ds ih =>
      simp only [applyDeltas, List.foldl_cons] at *
      rw [ih]
      simp [counterFakeImpl, add_assoc]

/-!
## Claim theorems
-/

/-- C1 (counterexample): it is NOT the case that for every value `v` and
count `n` the Timeseries `add_value_aggregated(v, n)` call and the Histogram
`add_repeated_value(v, n)` call are observationally distinguishable on the
reference fakes: at `v = 5`, `n = 1` both denote one sample of value `5`, so
the (sample count, sample sum) observations coincide. -/
theorem aggregated_vs_repeated_counterexample :
    ¬ ∀ (v : Int) (n : Nat),
      tsTotals (tsFakeImpl.add_value_aggregated emptyTs v n) ≠
        histTotals (histFakeImpl.add_repeated_value emptyHist v n) :=
  fun h => h 5 1 (by decide)

/-- C1 (amended): for every value `v` and count `n`, the Timeseries
`add_value_aggregated(v, n)` call on the reference fake records `n` samples
summing to `v` (the log entry `(v, n)`), and the Histogram
`add_repeated_value(v, n)` call records exactly `n` samples each equal to
`v` (`List.replicate n v`); the two calls with the same arguments are
observationally distinguishable whenever `v ≠ n * v` (equivalently, whenever
`n ≠ 1` and `v ≠ 0`), since the histogram's samples sum to `n * v` while the
timeseries entry's samples sum to `v`. -/
theorem aggregated_vs_repeated_semantics (v : Int) (n : Nat)
    (hv : v ≠ (n : Int) * v) :
    (tsFakeImpl.add_value_aggregated emptyTs v n).log = [(v, n)] ∧
    (histFakeImpl.add_repeated_value emptyHist v n).samples = List.replicate n v ∧
    tsTotals (tsFakeImpl.add_value_aggregated emptyTs v n) ≠
      histTotals (histFakeImpl.add_repeated_value emptyHist v n) := by
  refine ⟨by simp [tsFakeImpl, emptyTs], by simp [histFakeImpl, emptyHist], ?_⟩
  have hts : tsTotals (tsFakeImpl.add_value_aggregated emptyTs v n) = (n, v) := by
    simp [tsTotals, tsFakeImpl, emptyTs]
  have hh : histTotals (histFakeImpl.add_repeated_value emptyHist v n) =
      (n, (n : Int) * v) := by
    simp [histTotals, histFakeImpl, emptyHist, List.sum_replicate, nsmul_eq_mul]
  rw [hts, hh]
  intro heq
  exact hv (congrArg Prod.snd heq)

/-- C1 (witness): the amended claim at `v = 7`, `n = 3`. -/
theorem aggregated_vs_repeated_semantics_witness :
    (tsFakeImpl.add_value_aggregated emptyTs 7 3).log = [(7, 3)] ∧
    (histFakeImpl.add_repeated_value emptyHist 7 3).samples = List.replicate 3 7 ∧
    tsTotals (tsFakeImpl.add_value_aggregated emptyTs 7 3) ≠
      histTotals (histFakeImpl.add_repeated_value emptyHist 7 3) :=
  aggregated_vs_repeated_semantics 7 3 (by decide)

/-- C2: for every capability implementation and every thread-local slot,
each adapter method (`CounterStatic::increment_value`,
`TimeseriesStatic::add_value`, `TimeseriesStatic::add_value_aggregated`,
`HistogramStatic::add_value`, `HistogramStatic::add_repeated_value`) has
exactly the effect of resolving the slot to the current thread's instance
and calling the corresponding raw capability method on it with the same
arguments, writing the mutated instance back to that thread's slot. -/
theorem adapter_resolve_equivalence (S : Type u) (c : CounterImpl S)
    (ts : TimeseriesImpl S) (h : HistogramImpl S) (key : LocalKey S)
    (t : ThreadId) (v : Int) (n : Nat) :
    counterStatic_increment_value c key t v =
      setSlot key t (c.increment_value (resolveSlot key t) v) ∧
    timeseriesStatic_add_value ts key t v =
      setSlot key t (ts.add_value (resolveSlot key t) v) ∧
    timeseriesStatic_add_value_aggregated ts key t v n =
      setSlot key t (ts.add_value_aggregated (resolveSlot key t) v n) ∧
    histogramStatic_add_value h key t v =
      setSlot key t (h.add_value (resolveSlot key t) v) ∧
    histogramStatic_add_repeated_value h key t v n =
      setSlot key t (h.add_repeated_value (resolveSlot key t) v n) :=
  ⟨rfl, rfl, rfl, rfl, rfl⟩

/-- C3: applying `increment_value(d1), ..., increment_value(dn)` to the
running-sum counter fake starting from total `0` leaves the total equal to
`d1 + ... + dn`, and the total is invariant under permutation of the call
sequence. -/
theorem counter_sum_of_deltas (ds ds' : List Int) (hp : ds'.Perm ds) :
    (applyDeltas ⟨0⟩ ds).total = ds.sum ∧
    (applyDeltas ⟨0⟩ ds').total = ds.sum := by
  constructor
  · rw [applyDeltas_total]; exact zero_add _
  · rw [applyDeltas_total, hp.sum_eq]; exact zero_add _

/-- C3 (witness): the deltas `[1, -2, 3]` and the permutation `[3, 1, -2]`
both leave the fake's total at `2`. -/
theorem counter_sum_of_deltas_witness :
    (applyDeltas ⟨0⟩ [1, -2, 3]).total = ([1, -2, 3] : List Int).sum ∧
    (applyDeltas ⟨0⟩ [3, 1, -2]).total = ([1, -2, 3] : List Int).sum :=
  counter_sum_of_deltas [1, -2, 3] [3, 1, -2] (by decide)

/-- C4: on the bucket-map histogram fake, starting from the empty map, the
call sequence `add_value(5)` then `add_repeated_value(7, nsamples := 3)`
leaves the bucket map equal to `{5 : 1, 7 : 3}` (and `0` elsewhere). -/
theorem histogram_bucket_scenario :
    (histMapFakeImpl.add_repeated_value
        (histMapFakeImpl.add_value emptyHistMap 5) 7 3).buckets =
      fun x => if x = 5 then 1 else if x = 7 then 3 else 0 := by
  funext x
  by_cases h7 : x = 7 <;> by_cases h5 : x = 5 <;>
    simp [histMapFakeImpl, emptyHistMap, h5, h7]

/-- C5: on the `(sum, nsamples)`-log timeseries fake, starting from the
empty log, `add_value(4)` then `add_value_aggregated(10, nsamples := 2)`
leaves the log equal to `[(4, 1), (10, 2)]`, in that order. -/
theorem timeseries_log_scenario :
    (tsFakeImpl.add_value_aggregated (tsFakeImpl.add_value emptyTs 4) 10 2).log =
      [(4, 1), (10, 2)] :=
  rfl

/-- C6: every capability method (`Counter::increment_value`,
`Timeseries::add_value`, `Timeseries::add_value_aggregated`,
`Histogram::add_value`, `Histogram::add_repeated_value`) is declared to
return `()` — no value and no error-carrying type — so no failure can
propagate back through the interface to the caller. -/
theorem capability_methods_infallible :
    (counter_increment_value_sig.ret = Ty.unit ∧
      errorCarrying counter_increment_value_sig.ret = false) ∧
    (timeseries_add_value_sig.ret = Ty.unit ∧
      errorCarrying timeseries_add_value_sig.ret = false) ∧
    (timeseries_add_value_aggregated_sig.ret = Ty.unit ∧
      errorCarrying timeseries_add_value_aggregated_sig.ret = false) ∧
    (histogram_add_value_sig.ret = Ty.unit ∧
      errorCarrying histogram_add_value_sig.ret = false) ∧
    (histogram_add_repeated_value_sig.ret = Ty.unit ∧
      errorCarrying histogram_add_repeated_value_sig.ret = false) := by
  decide

/-- C7 (counterexample): the adapter method `CounterStatic::increment_value`
does NOT have a signature identical to `Counter::increment_value`: the
receiver types differ (`&'static self` versus `&self`). -/
theorem adapter_signature_counterexample :
    counterStatic_increment_value_sig ≠ counter_increment_value_sig := by
  decide

/-- C7 (amended): each thread-local adapter method has the same name, the
same parameter types and the same return type as the corresponding
capability method, and both receivers are shared references to `self`; but
the adapter's receiver carries the `'static` lifetime while the capability's
receiver has an elided lifetime, so the receiver types are not identical. -/
theorem adapter_signatures_match_except_receiver :
    (counterStatic_increment_value_sig.name = counter_increment_value_sig.name ∧
      counterStatic_increment_value_sig.params = counter_increment_value_sig.params ∧
      counterStatic_increment_value_sig.ret = counter_increment_value_sig.ret ∧
      counterStatic_increment_value_sig.recv = Recv.ref Lifetime.static_ ∧
      counter_increment_value_sig.recv = Recv.ref Lifetime.elided) ∧
    (timeseriesStatic_add_value_sig.name = timeseries_add_value_sig.name ∧
      timeseriesStatic_add_value_sig.params = timeseries_add_value_sig.params ∧
      timeseriesStatic_add_value_sig.ret = timeseries_add_value_sig.ret ∧
      timeseriesStatic_add_value_sig.recv = Recv.ref Lifetime.static_ ∧
      timeseries_add_value_sig.recv = Recv.ref Lifetime.elided) ∧
    (timeseriesStatic_add_value_aggregated_sig.name =
        timeseries_add_value_aggregated_sig.name ∧
      timeseriesStatic_add_value_aggregated_sig.params =
        timeseries_add_value_aggregated_sig.params ∧
      timeseriesStatic_add_value_aggregated_sig.ret =
        timeseries_add_value_aggregated_sig.ret ∧
      timeseriesStatic_add_value_aggregated_sig.recv = Recv.ref Lifetime.static_ ∧
      timeseries_add_value_aggregated_sig.recv = Recv.ref Lifetime.elided) ∧
    (histogramStatic_add_value_sig.name = histogram_add_value_sig.name ∧
      histogramStatic_add_value_sig.params = histogram_add_value_sig.params ∧
      histogramStatic_add_value_sig.ret = histogram_add_value_sig.ret ∧
      histogramStatic_add_value_sig.recv = Recv.ref Lifetime.static_ ∧
      histogram_add_value_sig.recv = Recv.ref Lifetime.elided) ∧
    (histogramStatic_add_repeated_value_sig.name =
        histogram_add_repeated_value_sig.name ∧
      histogramStatic_add_repeated_value_sig.params =
        histogram_add_repeated_value_sig.params ∧
      histogramStatic_add_repeated_value_sig.ret =
        histogram_add_repeated_value_sig.ret ∧
      histogramStatic_add_repeated_value_sig.recv = Recv.ref Lifetime.static_ ∧
      histogram_add_repeated_value_sig.recv = Recv.ref Lifetime.elided) := by
  decide

/-- C8: calling the adapter's `increment_value` from thread `t` updates only
thread `t`'s instance of the slot (to the result of the raw call); every
other thread `t'` sees its own instance unchanged. -/
theorem adapter_thread_isolation (S : Type u) (c : CounterImpl S)
    (key : LocalKey S) (t t' : ThreadId) (v : Int) (h : t' ≠ t) :
    counterStatic_increment_value c key t v t = c.increment_value (key t) v ∧
    counterStatic_increment_value c key t v t' = key t' := by
  refine ⟨?_, ?_⟩ <;> simp [counterStatic_increment_value, localWith, h]

/-- C8 (witness): with the summing counter over a slot of zeros, thread `0`'s
adapter call updates thread `0`'s instance and leaves thread `1`'s instance
unchanged. -/
theorem adapter_thread_isolation_witness :
    counterStatic_increment_value intSumCounter zeroKey 0 5 0 =
      intSumCounter.increment_value (zeroKey 0) 5 ∧
    counterStatic_increment_value intSumCounter zeroKey 0 5 1 = zeroKey 1 :=
  adapter_thread_isolation Int intSumCounter zeroKey 0 1 5 (by decide)

/-- C9: constructing an ownership-erased handle (`Box::new`) or a
thread-local slot, without invoking any recording method, leaves the
underlying implementation's state exactly as it was. -/
theorem construction_is_noop (S : Type u) (s init : S) (t : ThreadId) :
    (mkBoxed s).inner = s ∧ mkLocalKey init t = init :=
  ⟨rfl, rfl⟩

/-- C10: the `auto_impl(Box)`-generated implementations forward each
capability method on the box to exactly the same method, with the same
arguments, applied exactly once to the boxed inner value; the boxed and
unboxed calls are observationally equivalent, and on a call-logging counter
the boxed call adds exactly one log entry recording the method and argument. -/
theorem boxed_forwarding (S : Type u) (c : CounterImpl S)
    (ts : TimeseriesImpl S) (h : HistogramImpl S) (b : Boxed S) (v : Int)
    (n : Nat) (log : List (String × Int)) :
    (boxCounterImpl c).increment_value b v = mkBoxed (c.increment_value b.inner v) ∧
    (boxTimeseriesImpl ts).add_value b v = mkBoxed (ts.add_value b.inner v) ∧
    (boxTimeseriesImpl ts).add_value_aggregated b v n =
      mkBoxed (ts.add_value_aggregated b.inner v n) ∧
    (boxHistogramImpl h).add_value b v = mkBoxed (h.add_value b.inner v) ∧
    (boxHistogramImpl h).add_repeated_value b v n =
      mkBoxed (h.add_repeated_value b.inner v n) ∧
    (boxCounterImpl callLogCounter).increment_value (mkBoxed log) v =
      mkBoxed (log ++ [("increment_value", v)]) :=
  ⟨rfl, rfl, rfl, rfl, rfl, rfl⟩

end StatTypes
